import Mathlib

set_option autoImplicit false

/-!
Shallow embedding of the FastFreeze run/restore orchestrator
(`src/cli/run.rs`, `src/ff_socket.rs`, `src/logger.rs`,
`src/process/command.rs`) and proofs about it.
-/

namespace FastFreeze

/-! ### Signals (platform set iterated by `nix::sys::signal::Signal::iterator()`) -/

/-- The Linux signal set, as enumerated by the `nix` crate's
`Signal::iterator()` on x86_64 Linux. `SIGPOLL` stands for the signal the
crate names after the poll I/O event (number 29). -/
inductive Signal where
  | SIGHUP | SIGINT | SIGQUIT | SIGILL | SIGTRAP | SIGABRT | SIGBUS | SIGFPE
  | SIGKILL | SIGUSR1 | SIGSEGV | SIGUSR2 | SIGPIPE | SIGALRM | SIGTERM
  | SIGSTKFLT | SIGCHLD | SIGCONT | SIGSTOP | SIGTSTP | SIGTTIN | SIGTTOU
  | SIGURG | SIGXCPU | SIGXFSZ | SIGVTALRM | SIGPROF | SIGWINCH | SIGPOLL
  | SIGPWR | SIGSYS
deriving DecidableEq, Repr, Fintype

/-- The C signal number (`sig as c_int` in the source), x86_64 Linux values. -/
def Signal.toCInt : Signal → Int
  | .SIGHUP => 1 | .SIGINT => 2 | .SIGQUIT => 3 | .SIGILL => 4 | .SIGTRAP => 5
  | .SIGABRT => 6 | .SIGBUS => 7 | .SIGFPE => 8 | .SIGKILL => 9
  | .SIGUSR1 => 10 | .SIGSEGV => 11 | .SIGUSR2 => 12 | .SIGPIPE => 13
  | .SIGALRM => 14 | .SIGTERM => 15 | .SIGSTKFLT => 16 | .SIGCHLD => 17
  | .SIGCONT => 18 | .SIGSTOP => 19 | .SIGTSTP => 20 | .SIGTTIN => 21
  | .SIGTTOU => 22 | .SIGURG => 23 | .SIGXCPU => 24 | .SIGXFSZ => 25
  | .SIGVTALRM => 26 | .SIGPROF => 27 | .SIGWINCH => 28 | .SIGPOLL => 29
  | .SIGPWR => 30 | .SIGSYS => 31

/-- The list produced by `Signal::iterator()`, in declaration order. -/
def Signal.iterator : List Signal :=
  [.SIGHUP, .SIGINT, .SIGQUIT, .SIGILL, .SIGTRAP, .SIGABRT, .SIGBUS, .SIGFPE,
   .SIGKILL, .SIGUSR1, .SIGSEGV, .SIGUSR2, .SIGPIPE, .SIGALRM, .SIGTERM,
   .SIGSTKFLT, .SIGCHLD, .SIGCONT, .SIGSTOP, .SIGTSTP, .SIGTTIN, .SIGTTOU,
   .SIGURG, .SIGXCPU, .SIGXFSZ, .SIGVTALRM, .SIGPROF, .SIGWINCH, .SIGPOLL,
   .SIGPWR, .SIGSYS]

/-- Modelled from the spec: `signal_hook::FORBIDDEN`, the kernel-forbidden
set of signal numbers that may not receive a user handler
(`SIGKILL`, `SIGSTOP`, `SIGFPE`, `SIGILL`, `SIGSEGV`, `SIGBUS`); the
constant lives in the external `signal_hook` crate, not in this repository. -/
def FORBIDDEN : List Int := [9, 19, 8, 4, 11, 7]

/-- Modelled from the spec: `APP_ROOT_PID`, the compile-time constant low PID
reserved for the application root process ("e.g., in the low hundreds"); the
constant lives in `consts.rs`, which is not among the provided sources. The
claims depend only on comparisons against it, not on the exact value. -/
def APP_ROOT_PID : Int := 300

/-! ### `monitor_app` handler-registration loop (`src/cli/run.rs:232-248`) -/

/-- The skip condition of the registration loop:
`sig == Signal::SIGCHLD || signal_hook::FORBIDDEN.contains(&(sig as c_int))`. -/
def monitor_skips (sig : Signal) : Bool :=
  sig == Signal.SIGCHLD || FORBIDDEN.contains sig.toCInt

/-- Signals for which the loop `continue`s without registering a handler. -/
def skipped_signals : List Signal :=
  Signal.iterator.filter monitor_skips

/-- Signals for which the loop registers a forwarding handler. -/
def forwarded_signals : List Signal :=
  Signal.iterator.filter (fun s => !monitor_skips s)

/-- The handlers installed by the loop: each forwards its signal to
`APP_ROOT_PID` via `kill(Pid::from_raw(APP_ROOT_PID), sig)`. -/
def installed_handlers : List (Signal × Int) :=
  forwarded_signals.map (fun s => (s, APP_ROOT_PID))

/-- The seven signals named by the claim. -/
def claim_seven : List Signal :=
  [.SIGCHLD, .SIGKILL, .SIGSTOP, .SIGFPE, .SIGILL, .SIGSEGV, .SIGBUS]

/-- C1: the set of signals skipped by `monitor_app`'s handler-registration
loop is exactly {SIGCHLD, SIGKILL, SIGSTOP, SIGFPE, SIGILL, SIGSEGV, SIGBUS},
and for none of these seven is a forwarding handler to APP_ROOT_PID
installed. -/
theorem monitor_app_skips_exactly_seven :
    (∀ s : Signal, s ∈ skipped_signals ↔ s ∈ claim_seven)
    ∧ claim_seven.all
        (fun s => !(installed_handlers.contains (s, APP_ROOT_PID))) = true := by
  decide

/-! ### `monitor_app` reap loop (`src/cli/run.rs:251-278`) -/

/-- Result of `wait(2)` as matched in the loop. -/
inductive WaitStatus where
  | Exited (pid : Int) (exit_status : Int)
  | Signaled (pid : Int) (sig : Signal) (core_dumped : Bool)
  | Other
deriving DecidableEq, Repr

/-- Rust `as u8` truncation of an `i32`. -/
def asU8 (i : Int) : Nat := (i % 256).toNat

/-- The error the loop returns when APP_ROOT_PID dies: the `killpg` target
and the `ExitCode` attached as context. -/
structure AppExit where
  killpg_pid : Int
  exit_code : Nat
deriving DecidableEq, Repr

/-- `child_exited`: if the reaped pid is APP_ROOT_PID, `killpg(pid, SIGKILL)`
and return the error built by the closure; otherwise continue. -/
def child_exited (pid : Int) (exit_code : Nat) : Except AppExit Unit :=
  if pid = APP_ROOT_PID then
    Except.error { killpg_pid := pid, exit_code := exit_code }
  else
    Except.ok ()

/-- One iteration of the reap loop body on a wait status. For
`Exited` the code attaches `ExitCode(exit_status as u8)`; for `Signaled` it
attaches `ExitCode(128 + signal as u8)` (u8 arithmetic, i.e. mod 256). -/
def monitor_step (ws : WaitStatus) : Except AppExit Unit :=
  match ws with
  | .Exited pid exit_status => child_exited pid (asU8 exit_status)
  | .Signaled pid sig _ => child_exited pid ((128 + asU8 sig.toCInt) % 256)
  | .Other => Except.ok ()

/-- The reap loop over a (finite prefix of a) stream of wait results. -/
def monitor_reap_loop (events : List WaitStatus) : Except AppExit Unit :=
  match events with
  | [] => Except.ok ()
  | ws :: rest =>
    match monitor_step ws with
    | .error e => Except.error e
    | .ok _ => monitor_reap_loop rest

theorem sig_u8_add (sig : Signal) :
    (128 + asU8 sig.toCInt) % 256 = 128 + sig.toCInt.toNat := by
  cases sig <;> decide

/-- C2: in the reap loop, exit of APP_ROOT_PID with code `c` yields an error
carrying `killpg(APP_ROOT_PID, SIGKILL)` and exit code `c` truncated to 8
bits; death of APP_ROOT_PID by signal `s` yields the same kill and exit code
`128 + s`; any reaped child with a different pid (and any other wait status)
leaves the loop running with no error. -/
theorem monitor_reap_exit_codes (pid c : Int) (sig : Signal) (core : Bool)
    (rest : List WaitStatus) :
    monitor_reap_loop (WaitStatus.Exited APP_ROOT_PID c :: rest)
        = Except.error { killpg_pid := APP_ROOT_PID, exit_code := asU8 c }
    ∧ monitor_reap_loop (WaitStatus.Signaled APP_ROOT_PID sig core :: rest)
        = Except.error { killpg_pid := APP_ROOT_PID,
                         exit_code := 128 + sig.toCInt.toNat }
    ∧ (pid ≠ APP_ROOT_PID →
        monitor_reap_loop (WaitStatus.Exited pid c :: rest)
            = monitor_reap_loop rest
        ∧ monitor_reap_loop (WaitStatus.Signaled pid sig core :: rest)
            = monitor_reap_loop rest)
    ∧ monitor_reap_loop (WaitStatus.Other :: rest) = monitor_reap_loop rest := by
  refine ⟨?_, ?_, fun h => ⟨?_, ?_⟩, ?_⟩ <;>
    simp [monitor_reap_loop, monitor_step, child_exited, sig_u8_add, *]

/-- Concrete instance of `monitor_reap_exit_codes`: a reaped orphan with
pid 1 ≠ APP_ROOT_PID does not end the loop. -/
theorem monitor_reap_exit_codes_witness :
    monitor_reap_loop [WaitStatus.Exited 1 0] = monitor_reap_loop [] :=
  ((monitor_reap_exit_codes 1 0 Signal.SIGTERM false []).2.2.1 (by decide)).1

/-! ### `AppConfig` and the restore-time merge (`src/cli/run.rs:130-184`) -/

/-- `AppConfig`, persisted under `APP_CONFIG_PATH`. `preserved_paths` is a
`HashSet<PathBuf>`, modelled as a finite set of path strings; `app_clock` is
`Nanos` (i64). -/
structure AppConfig where
  image_url : String
  preserved_paths : Finset String
  app_clock : Int
deriving DecidableEq

/-- `preserved_paths.into_iter().collect::<HashSet<_>>()` on the CLI's
`Vec<PathBuf>` (`src/cli/run.rs:371`): inserts every element of the list. -/
def collect_hash_set (l : List String) : Finset String :=
  l.foldl (fun s p => insert p s) ∅

/-- `HashSet::extend`: insert every element of the other set (set union). -/
def hash_set_extend (s t : Finset String) : Finset String := s ∪ t

/-- The config update performed by `restore` after untar
(`src/cli/run.rs:181-184`): overwrite `image_url`, extend
`preserved_paths` with the caller's set, keep `app_clock`; the result is
what `config.save()` writes back to disk. -/
def restore_config_update (config : AppConfig) (image_url : String)
    (preserved_paths : Finset String) : AppConfig :=
  { config with
    image_url := image_url,
    preserved_paths := hash_set_extend config.preserved_paths preserved_paths }

theorem collect_hash_set_go (l : List String) (s : Finset String) :
    l.foldl (fun s p => insert p s) s = s ∪ l.toFinset := by
  induction l generalizing s with
  | nil => simp
  | cons x xs ih =>
    simp only [List.foldl_cons, List.toFinset_cons, ih]
    rw [Finset.insert_union, Finset.union_insert]

theorem collect_hash_set_eq_toFinset (l : List String) :
    collect_hash_set l = l.toFinset := by
  simp [collect_hash_set, collect_hash_set_go]

/-- C3: after a successful restore, the saved config's `preserved_paths` is
the set union of the image's set and the caller-supplied list, and the
result does not depend on the order of the caller-supplied elements. -/
theorem restore_preserved_paths_union (config : AppConfig) (url : String)
    (caller : List String) :
    (restore_config_update config url (collect_hash_set caller)).preserved_paths
        = config.preserved_paths ∪ caller.toFinset
    ∧ ∀ caller₂ : List String, caller.Perm caller₂ →
        (restore_config_update config url
            (collect_hash_set caller)).preserved_paths
          = (restore_config_update config url
              (collect_hash_set caller₂)).preserved_paths := by
  constructor
  · simp [restore_config_update, hash_set_extend, collect_hash_set_eq_toFinset]
  · intro caller₂ hperm
    simp [restore_config_update, hash_set_extend, collect_hash_set_eq_toFinset,
          List.toFinset_eq_of_perm _ _ hperm]

/-- Concrete instance of `restore_preserved_paths_union`: image set
`{/a, /b}` merged with caller list `[/b, /c]` yields exactly `{/a, /b, /c}`,
in either caller order. -/
theorem restore_preserved_paths_union_witness :
    (restore_config_update ⟨"file:img", {"/a", "/b"}, 0⟩ "file:img"
        (collect_hash_set ["/b", "/c"])).preserved_paths
      = ({"/a", "/b"} : Finset String) ∪ (["/b", "/c"] : List String).toFinset
    ∧ (restore_config_update ⟨"file:img", {"/a", "/b"}, 0⟩ "file:img"
        (collect_hash_set ["/b", "/c"])).preserved_paths
      = (restore_config_update ⟨"file:img", {"/a", "/b"}, 0⟩ "file:img"
          (collect_hash_set ["/c", "/b"])).preserved_paths
    ∧ ({"/a", "/b"} : Finset String) ∪ (["/b", "/c"] : List String).toFinset
      = {"/a", "/b", "/c"} :=
  ⟨(restore_preserved_paths_union ⟨"file:img", {"/a", "/b"}, 0⟩ "file:img"
      ["/b", "/c"]).1,
   (restore_preserved_paths_union ⟨"file:img", {"/a", "/b"}, 0⟩ "file:img"
      ["/b", "/c"]).2 ["/c", "/b"] (by decide),
   by decide⟩

/-! ### `determine_run_mode` (`src/cli/run.rs:318-349`) -/

/-- Failure of `store::from_url` (unsupported URL scheme). -/
inductive StoreError where
  | UnsupportedUrl (url : String)
deriving DecidableEq, Repr

/-- A store adapter selected from the URL scheme. -/
structure Store where
  url : String
deriving DecidableEq, Repr

/-- The URL starts with the given scheme string. -/
def url_has_scheme (scheme url : String) : Bool :=
  scheme.data.isPrefixOf url.data

/-- Modelled from the spec: `store::from_url` selects a store adapter from
the URL scheme (`s3://`, `gs://`, or `file:`); the function lives in
`store/mod.rs`, which is not among the provided sources. -/
def from_url (url : String) : Except StoreError Store :=
  if url_has_scheme "s3://" url || url_has_scheme "gs://" url
      || url_has_scheme "file:" url then
    Except.ok { url := url }
  else
    Except.error (StoreError.UnsupportedUrl url)

/-- Modelled from the spec: the image manifest is an opaque descriptor that
yields an ordered list of shard locators (`image.rs` is not among the
provided sources). -/
structure ImageManifest where
  shards : List String
deriving DecidableEq, Repr

/-- Outcome of `ImageManifest::fetch_from_store`. -/
inductive ManifestFetchResult where
  | Some (manifest : ImageManifest)
  | VersionMismatch (fetched desired : String)
  | NotFound
deriving DecidableEq, Repr

/-- A transport or parse failure while fetching the manifest. -/
inductive FetchError where
  | TransportOrParse (msg : String)
deriving DecidableEq, Repr

/-- Modelled from the spec: `shard::download_cmds` derives one shell command
per shard from the manifest's shard list and the store adapter
(`image/shard.rs` is not among the provided sources). -/
def download_cmds (manifest : ImageManifest) (store : Store) : List String :=
  manifest.shards.map (fun loc => store.url ++ " " ++ loc)

inductive RunMode where
  | Restore (shard_download_cmds : List String)
  | FromScratch
deriving DecidableEq, Repr

/-- Errors `determine_run_mode` can propagate. -/
inductive RunError where
  | storeError (e : StoreError)
  | fetchError (e : FetchError)
deriving DecidableEq, Repr

/-- `determine_run_mode`: select the store from the URL, fetch the manifest
(`with_metrics` returns the wrapped closure's result unchanged), then map
`Some` to `Restore` with the derived shard download commands and both
`VersionMismatch` and `NotFound` to `FromScratch`. The fetch itself is the
external `ImageManifest::fetch_from_store`, passed here as a function. -/
def determine_run_mode
    (fetch_from_store : Store → Bool → Except FetchError ManifestFetchResult)
    (image_url : String) (allow_bad_image_version : Bool) :
    Except RunError RunMode :=
  match from_url image_url with
  | .error e => Except.error (RunError.storeError e)
  | .ok store =>
    match fetch_from_store store allow_bad_image_version with
    | .error e => Except.error (RunError.fetchError e)
    | .ok (.Some manifest) =>
        Except.ok (RunMode.Restore (download_cmds manifest store))
    | .ok (.VersionMismatch _ _) => Except.ok RunMode.FromScratch
    | .ok .NotFound => Except.ok RunMode.FromScratch

/-- C4: given a URL the store accepts, `determine_run_mode` returns
`Restore` with the manifest-derived shard commands exactly when the fetch
yields `Some manifest`, returns `FromScratch` on `VersionMismatch` and
`NotFound`, and returns an error exactly when the fetch itself fails. -/
theorem determine_run_mode_cases
    (fetch : Store → Bool → Except FetchError ManifestFetchResult)
    (url : String) (allow : Bool) (store : Store)
    (h : from_url url = Except.ok store) :
    (∀ m, fetch store allow = Except.ok (ManifestFetchResult.Some m) →
        determine_run_mode fetch url allow
          = Except.ok (RunMode.Restore (download_cmds m store)))
    ∧ (∀ f d,
        fetch store allow = Except.ok (ManifestFetchResult.VersionMismatch f d) →
        determine_run_mode fetch url allow = Except.ok RunMode.FromScratch)
    ∧ (fetch store allow = Except.ok ManifestFetchResult.NotFound →
        determine_run_mode fetch url allow = Except.ok RunMode.FromScratch)
    ∧ (∀ e, fetch store allow = Except.error e →
        determine_run_mode fetch url allow
          = Except.error (RunError.fetchError e))
    ∧ (∀ e, determine_run_mode fetch url allow = Except.error e →
        ∃ fe, e = RunError.fetchError fe
          ∧ fetch store allow = Except.error fe) := by
  have hd : determine_run_mode fetch url allow =
      (match fetch store allow with
       | .error e => Except.error (RunError.fetchError e)
       | .ok (.Some manifest) =>
           Except.ok (RunMode.Restore (download_cmds manifest store))
       | .ok (.VersionMismatch _ _) => Except.ok RunMode.FromScratch
       | .ok .NotFound => Except.ok RunMode.FromScratch) := by
    unfold determine_run_mode
    rw [h]
  refine ⟨fun m hm => ?_, fun f d hv => ?_, fun hn => ?_, fun e he => ?_,
          fun e he => ?_⟩
  · rw [hd, hm]
  · rw [hd, hv]
  · rw [hd, hn]
  · rw [hd, he]
  · rcases hfetch : fetch store allow with fe | r
    · rw [hd, hfetch] at he
      exact ⟨fe, (Except.error.inj he).symm, rfl⟩
    · rw [hd, hfetch] at he
      cases r <;> exact Except.noConfusion he

/-- Concrete instance of `determine_run_mode_cases`: an accepted `file:` URL
whose manifest is absent runs from scratch. -/
theorem determine_run_mode_cases_witness :
    determine_run_mode (fun _ _ => Except.ok ManifestFetchResult.NotFound)
        "file:img" false = Except.ok RunMode.FromScratch :=
  (determine_run_mode_cases (fun _ _ => Except.ok ManifestFetchResult.NotFound)
      "file:img" false { url := "file:img" } rfl).2.2.1 rfl

/-! ### `AppConfig::save` write sequence (`src/cli/run.rs:138-141`) -/

/-- The contents of the file after each incremental write of
`serde_json::to_writer_pretty` to the unbuffered `File`, starting from the
content `acc` already on disk: each chunk of the serializer's output is
appended by one `write`, and every intermediate content is observable. -/
def write_states (acc : String) : List String → List String
  | [] => [acc]
  | c :: rest => acc :: write_states (acc ++ c) rest

/-- Concatenation of the write chunks: the full new serialization. -/
def joined : List String → String
  | [] => ""
  | c :: rest => c ++ joined rest

/-- The observable contents of the file at `APP_CONFIG_PATH` while
`AppConfig::save` runs, for one decomposition of the serializer's output
into write chunks: the prior content, then the truncated (empty) file
produced by `fs::File::create`, then the growing partial contents after
each incremental write. -/
def save_observable_states (old_content : String) (chunks : List String) :
    List String :=
  old_content :: write_states "" chunks

/-- The claim's property: however the serializer's output is decomposed
into write chunks, every state a reader can observe during `save` is
either the complete prior content or the complete new content. -/
def save_atomic_replacement (old_content new_content : String) : Prop :=
  ∀ chunks : List String, joined chunks = new_content →
    ∀ s ∈ save_observable_states old_content chunks,
      s = old_content ∨ s = new_content

/-- C5 counterexample: writing `"new-config"` over `"old-config"` in the
two chunks `"new-"` and `"config"` exposes the partial content `"new-"`
(besides the truncated content `""`), which is neither the prior nor the
new content; `save` is not an atomic replacement. -/
theorem save_not_atomic :
    ¬ save_atomic_replacement "old-config" "new-config" := fun hctr =>
  absurd (hctr ["new-", "config"] (by decide) "new-" (by decide)) (by decide)

theorem write_states_mem (chunks : List String) :
    ∀ (acc s : String), s ∈ write_states acc chunks →
      ∃ t : String, s ++ t = acc ++ joined chunks := by
  induction chunks with
  | nil =>
    intro acc s hs
    have hsa : s = acc := by simpa [write_states] using hs
    exact ⟨"", by rw [hsa]; rfl⟩
  | cons c rest ih =>
    intro acc s hs
    rcases List.mem_cons.mp hs with h | h
    · exact ⟨c ++ joined rest, by rw [h]; rfl⟩
    · rcases ih (acc ++ c) s h with ⟨t, ht⟩
      exact ⟨t, by rw [ht, String.append_assoc]; rfl⟩

theorem save_states_getLast (chunks : List String) :
    ∀ (prev acc : String),
      (prev :: write_states acc chunks).getLast? =
        some (acc ++ joined chunks) := by
  induction chunks with
  | nil =>
    intro prev acc
    show (prev :: [acc]).getLast? = some (acc ++ joined [])
    rw [List.getLast?_cons_cons]
    show some acc = some (acc ++ "")
    rw [String.append_empty]
  | cons c rest ih =>
    intro prev acc
    show (prev :: acc :: write_states (acc ++ c) rest).getLast?
        = some (acc ++ joined (c :: rest))
    rw [List.getLast?_cons_cons, ih acc (acc ++ c), String.append_assoc]
    rfl

/-- C5 amended: whatever the decomposition of the serializer's output into
write chunks, a mid-save reader observes the prior content or a (possibly
empty, possibly partial) prefix of the new content; the truncated empty
state is always among the observable states, and the final state is the
complete new content. -/
theorem save_truncate_then_write (old_content new_content : String)
    (chunks : List String) (hjoin : joined chunks = new_content) :
    (∀ s ∈ save_observable_states old_content chunks,
        s = old_content ∨ ∃ t : String, s ++ t = new_content)
    ∧ (∃ rest : List String,
        save_observable_states old_content chunks
          = old_content :: "" :: rest)
    ∧ (save_observable_states old_content chunks).getLast?
        = some new_content := by
  refine ⟨?_, ?_, ?_⟩
  · intro s hs
    rcases List.mem_cons.mp hs with h | h
    · exact Or.inl h
    · rcases write_states_mem chunks "" s h with ⟨t, ht⟩
      rw [String.empty_append] at ht
      exact Or.inr ⟨t, by rw [ht]; exact hjoin⟩
  · cases chunks with
    | nil => exact ⟨[], rfl⟩
    | cons c rest => exact ⟨write_states ("" ++ c) rest, rfl⟩
  · have h := save_states_getLast chunks old_content ""
    rw [String.empty_append] at h
    show (old_content :: write_states "" chunks).getLast? = some new_content
    rw [h, hjoin]

/-- Concrete instance of `save_truncate_then_write`: for the two-chunk
write of `"new-config"` over `"old-config"`, the observable partial state
`"new-"` is a prefix of the new content, and the final state is the
complete new content. -/
theorem save_truncate_then_write_witness :
    ("new-" = "old-config" ∨ ∃ t : String, "new-" ++ t = "new-config")
    ∧ (save_observable_states "old-config" ["new-", "config"]).getLast?
        = some "new-config" :=
  ⟨(save_truncate_then_write "old-config" "new-config" ["new-", "config"]
      (by decide)).1 "new-" (by decide),
   (save_truncate_then_write "old-config" "new-config" ["new-", "config"]
      (by decide)).2.2⟩

/-! ### Control daemon `main_loop` (`src/ff_socket.rs:49-108`) -/

/-- Modelled from the spec: the CPU budget levels of the checkpoint command
(`image.rs` is not among the provided sources). -/
inductive CpuBudget where
  | Low | Medium | High
deriving DecidableEq, Repr

/-- The `Checkpoint` argument record of `do_checkpoint`, with the fields the
daemon fills in (`cli/checkpoint.rs` is not among the provided sources; the
field list is taken from the construction site in `src/ff_socket.rs:79-88`). -/
structure Checkpoint where
  image_url : Option String
  preserved_paths : List String
  leave_running : Bool
  num_shards : Nat
  cpu_budget : CpuBudget
  passphrase_file : Option String
  verbose : Nat
  app_name : Option String
deriving DecidableEq, Repr

/-- The hard-coded checkpoint request built in `main_loop`
(`src/ff_socket.rs:79-88`). -/
def control_checkpoint_request : Checkpoint :=
  { image_url := none,
    preserved_paths := [],
    leave_running := true,
    num_shards := 1,
    cpu_budget := CpuBudget.Medium,
    passphrase_file := none,
    verbose := 0,
    app_name := none }

/-- The kinds of objects registered with the poller. -/
inductive PollType where
  | Listener
  | Connection (conn_id : Nat)
  | Stop
deriving DecidableEq, Repr

/-- The size of the read buffer: `let mut buf = [0u8; 1024]`. -/
def BUF_SIZE : Nat := 1024

/-- The buffer after `connection.read` returned `size = data.length`: the
received bytes in front, the rest of the zero-initialized buffer untouched
(bytes are numbers below 256). -/
def buf_after_read (data : List Nat) : List Nat :=
  data ++ List.replicate (BUF_SIZE - data.length) 0

/-- Modelled from the spec: `Poller::remove` drops the entry registered
under the given key, leaving every other registration in place
(`poller.rs` is not among the provided sources). -/
def poller_remove (poller : List (Nat × PollType)) (key : Nat) :
    List (Nat × PollType) :=
  poller.filter (fun e => e.1 != key)

/-- The observable effects of one connection-readable event. -/
structure ConnStepResult where
  poller : List (Nat × PollType)
  checkpoints : List Checkpoint
  written : Option (List Nat)
deriving DecidableEq, Repr

/-- The `PollType::Connection` arm of `main_loop`
(`src/ff_socket.rs:68-100`): on a successful read of non-zero size, build
the hard-coded `Checkpoint`, run `do_checkpoint`, and `write_all` the whole
buffer back; on a zero-size read or a read error, remove the connection
from the poller. -/
def handle_connection_event (poller : List (Nat × PollType)) (poll_key : Nat)
    (read_result : Except Unit (List Nat)) : ConnStepResult :=
  match read_result with
  | .ok data =>
    if data.length != 0 then
      { poller := poller,
        checkpoints := [control_checkpoint_request],
        written := some (buf_after_read data) }
    else
      { poller := poller_remove poller poll_key,
        checkpoints := [],
        written := none }
  | .error _ =>
      { poller := poller_remove poller poll_key,
        checkpoints := [],
        written := none }

/-- C6 counterexample: for the one-byte payload `[78]`, the daemon writes
back the whole 1024-byte buffer, not an echo of just the received bytes. -/
theorem control_ack_not_echo :
    (handle_connection_event [(5, PollType.Connection 0)] 5
        (Except.ok [78])).written ≠ some [78] := by
  have hw : (handle_connection_event [(5, PollType.Connection 0)] 5
      (Except.ok [78])).written = some (buf_after_read [78]) := rfl
  rw [hw]
  intro hctr
  have h2 : (buf_after_read [78]).length = ([78] : List Nat).length :=
    congrArg List.length (Option.some.inj hctr)
  rw [buf_after_read] at h2
  simp only [List.length_append, List.length_replicate, List.length_cons,
             List.length_nil, BUF_SIZE] at h2
  omega

/-- C6 amended: a non-empty read of at most 1024 bytes triggers exactly one
checkpoint with the hard-coded defaults (`leave_running = true`, one shard,
medium CPU budget, no passphrase file, no override image URL, no preserved
paths), keeps the connection registered, and acknowledges by writing the
received bytes zero-padded to the full 1024-byte buffer. -/
theorem control_checkpoint_and_padded_ack (poller : List (Nat × PollType))
    (key : Nat) (data : List Nat) (hne : data ≠ []) :
    (handle_connection_event poller key (Except.ok data)).checkpoints
        = [control_checkpoint_request]
    ∧ control_checkpoint_request.leave_running = true
    ∧ control_checkpoint_request.num_shards = 1
    ∧ control_checkpoint_request.cpu_budget = CpuBudget.Medium
    ∧ control_checkpoint_request.passphrase_file = none
    ∧ control_checkpoint_request.image_url = none
    ∧ control_checkpoint_request.preserved_paths = []
    ∧ (handle_connection_event poller key (Except.ok data)).written
        = some (data ++ List.replicate (BUF_SIZE - data.length) 0)
    ∧ (handle_connection_event poller key (Except.ok data)).poller = poller := by
  have hlen : (data.length != 0) = true := by
    cases data with
    | nil => exact absurd rfl hne
    | cons a l => simp
  have hif : handle_connection_event poller key (Except.ok data) =
      { poller := poller,
        checkpoints := [control_checkpoint_request],
        written := some (buf_after_read data) } := by
    unfold handle_connection_event
    exact if_pos hlen
  exact ⟨by rw [hif], rfl, rfl, rfl, rfl, rfl, rfl, by rw [hif]; rfl,
         by rw [hif]⟩

/-- Concrete instance of `control_checkpoint_and_padded_ack` at payload
`[78]`. -/
theorem control_checkpoint_and_padded_ack_witness :
    (handle_connection_event [(5, PollType.Connection 0)] 5
        (Except.ok [78])).checkpoints = [control_checkpoint_request] :=
  (control_checkpoint_and_padded_ack [(5, PollType.Connection 0)] 5 [78]
      (by decide)).1

/-- C7: a read that returns 0 bytes or fails triggers no checkpoint and
writes nothing; only the entry registered under the event's key is removed
from the poller, and every other registration (the listener and all other
connections) survives unchanged. -/
theorem control_drop_connection (poller : List (Nat × PollType)) (key : Nat)
    (read_result : Except Unit (List Nat))
    (h : read_result = Except.ok [] ∨ read_result = Except.error ()) :
    (handle_connection_event poller key read_result).checkpoints = []
    ∧ (handle_connection_event poller key read_result).written = none
    ∧ (handle_connection_event poller key read_result).poller
        = poller_remove poller key
    ∧ (∀ e ∈ poller, e.1 ≠ key →
        e ∈ (handle_connection_event poller key read_result).poller)
    ∧ (∀ e ∈ (handle_connection_event poller key read_result).poller,
        e ∈ poller ∧ e.1 ≠ key) := by
  have hstep : handle_connection_event poller key read_result =
      { poller := poller_remove poller key,
        checkpoints := [],
        written := none } := by
    rcases h with h | h <;> subst h <;> rfl
  refine ⟨by rw [hstep], by rw [hstep], by rw [hstep], ?_, ?_⟩
  · intro e he hk
    rw [hstep]
    simp only [poller_remove, List.mem_filter, bne_iff_ne, ne_eq, decide_not]
    exact ⟨he, by simpa using hk⟩
  · intro e he
    rw [hstep] at he
    simp only [poller_remove, List.mem_filter, bne_iff_ne, ne_eq] at he
    exact he

/-- Concrete instance of `control_drop_connection`: key 5 is dropped, the
listener entry survives. -/
theorem control_drop_connection_witness :
    (1, PollType.Listener) ∈
      (handle_connection_event
        [(1, PollType.Listener), (5, PollType.Connection 0)] 5
        (Except.ok [])).poller :=
  (control_drop_connection
      [(1, PollType.Listener), (5, PollType.Connection 0)] 5
      (Except.ok []) (Or.inl rfl)).2.2.2.1
    (1, PollType.Listener) (by decide) (by decide)

/-! ### `ensure_non_conflicting_pid` (`src/cli/run.rs:351-362`) -/

/-- Modelled from the spec: `MIN_PID`, the low PID value the privileged
`ns_last_pid` helper resets to; the constant lives in `process/mod.rs`,
which is not among the provided sources. The claims do not depend on the
exact value. -/
def MIN_PID : Nat := 1

/-- Outcome of `ensure_non_conflicting_pid`, recording the
`set_ns_last_pid` side effect performed before bailing. -/
inductive EnsureResult where
  | ok
  | pid_too_high (ns_last_pid_set_to : Nat) (msg : String)
deriving DecidableEq, Repr

/-- `ensure_non_conflicting_pid`: bail when
`std::process::id() > APP_ROOT_PID as u32`, after first driving
`ns_last_pid` down to `MIN_PID`. -/
def ensure_non_conflicting_pid (process_id : Nat) : EnsureResult :=
  if process_id > APP_ROOT_PID.toNat then
    EnsureResult.pid_too_high MIN_PID
      "Current pid is too high. Re-run the same command again."
  else
    EnsureResult.ok

/-- C8 counterexample: at `process_id = APP_ROOT_PID` (which satisfies
`process_id ≥ APP_ROOT_PID`) the function returns `ok` instead of the error
the claim requires, so the supervisor's PID is not strictly below
APP_ROOT_PID on every `ok`. -/
theorem ensure_pid_boundary :
    APP_ROOT_PID.toNat ≥ APP_ROOT_PID.toNat
    ∧ ensure_non_conflicting_pid APP_ROOT_PID.toNat = EnsureResult.ok := by
  constructor
  · exact le_rfl
  · decide

/-- C8 amended: `ensure_non_conflicting_pid` fails (driving `ns_last_pid`
down to MIN_PID first, with the re-run message) exactly when the
supervisor's PID is strictly greater than APP_ROOT_PID, and returns `ok`
exactly when the PID is less than or equal to APP_ROOT_PID. -/
theorem ensure_non_conflicting_pid_cases (process_id : Nat) :
    (ensure_non_conflicting_pid process_id
        = EnsureResult.pid_too_high MIN_PID
            "Current pid is too high. Re-run the same command again."
      ↔ process_id > APP_ROOT_PID.toNat)
    ∧ (ensure_non_conflicting_pid process_id = EnsureResult.ok
      ↔ process_id ≤ APP_ROOT_PID.toNat) := by
  unfold ensure_non_conflicting_pid
  by_cases hcmp : process_id > APP_ROOT_PID.toNat
  · rw [if_pos hcmp]
    exact ⟨⟨fun _ => hcmp, fun _ => rfl⟩,
      ⟨fun h => EnsureResult.noConfusion h,
       fun hle => absurd hcmp (Nat.not_lt.mpr hle)⟩⟩
  · rw [if_neg hcmp]
    exact ⟨⟨fun h => EnsureResult.noConfusion h,
       fun hgt => absurd hgt hcmp⟩,
      ⟨fun _ => Nat.not_lt.mp hcmp, fun _ => rfl⟩⟩

/-! ### `Command::new` (`src/process/command.rs:53-63`) -/

/-- The `Command` wrapper: the inner `StdCommand`'s program and argument
list, the display strings, and the spawn-logging flag. -/
structure Command where
  program : String
  cmd_args : List String
  display_args : List String
  show_cmd_on_spawn : Bool
deriving DecidableEq, Repr

/-- `arg_for_display`: `to_string_lossy` on an OS string, the identity on
valid UTF-8 strings. -/
def arg_for_display (arg : String) : String := arg

/-- `Command::arg`: push the display string and the inner argument. -/
def Command.arg (c : Command) (a : String) : Command :=
  { c with
    display_args := c.display_args ++ [arg_for_display a],
    cmd_args := c.cmd_args ++ [a] }

/-- `Command::args`: `arg` each element in order. -/
def Command.add_args (c : Command) (as : List String) : Command :=
  as.foldl Command.arg c

/-- `Command::new`: take the first element of the iterator as the program
(`args.next().unwrap()`, which panics on an empty iterator — modelled as
`none`), then `args(rest)`. -/
def Command.new (args : List String) : Option Command :=
  match args with
  | [] => none
  | program :: rest =>
    some (Command.add_args
      { program := program,
        cmd_args := [],
        display_args := [arg_for_display program],
        show_cmd_on_spawn := true }
      rest)

theorem Command.add_args_spec (as : List String) (c : Command) :
    Command.add_args c as =
      { c with
        cmd_args := c.cmd_args ++ as,
        display_args := c.display_args ++ as.map arg_for_display } := by
  induction as generalizing c with
  | nil => simp [Command.add_args]
  | cons a l ih =>
    simp [Command.add_args, Command.arg] at ih ⊢
    rw [ih]
    simp

/-- C9: `Command::new` panics exactly on the empty argument list; on a
non-empty list it builds a command whose program is the first element and
whose arguments (and display strings) are the remaining elements. -/
theorem command_new_cases (p : String) (rest : List String) :
    Command.new [] = none
    ∧ Command.new (p :: rest) =
        some { program := p,
               cmd_args := rest,
               display_args := p :: rest,
               show_cmd_on_spawn := true } := by
  constructor
  · rfl
  · show some _ = some _
    rw [Command.add_args_spec]
    have hmap : rest.map arg_for_display = rest := List.map_id rest
    simp [hmap, arg_for_display]

/-! ### `logger::init` and `Logger::log` (`src/logger.rs:39-49,118-151`) -/

/-- The logger state held in the global `LOGGER` cell. The log file is
modelled by its path; `log_file = none` means file output is absent. -/
structure Logger where
  cmd_name : String
  log_file : Option Nat
  log_file_path : Option String
  stdout_enabled : Bool
deriving DecidableEq, Repr

/-- `logger::init` as a state transformer: install the logger regardless of
whether opening the log file succeeded (on failure only a warning is
emitted and both file fields stay `none`); the function ends by setting
`stdout_enabled`, and it returns — it has no error path. -/
def logger_init (cmd_name : String) (use_log_file : Bool)
    (open_log_file_result : Except String (String × Nat)) : Logger :=
  let file_fields :=
    if use_log_file then
      match open_log_file_result with
      | .ok (p, f) => (some p, some f)
      | .error _ => (none, none)
    else (none, none)
  { cmd_name := cmd_name,
    log_file_path := file_fields.1,
    log_file := file_fields.2,
    stdout_enabled := true }

/-- What one `Logger::log` call emits: the message goes to stderr when
`stdout_enabled`, and to the log file when one is present. -/
structure LogOutput where
  stderr_msg : Option String
  file_msg : Option String
deriving DecidableEq, Repr

/-- `Logger::log`: write the formatted message to stderr (when enabled) and
to the log file (when present). -/
def logger_log (l : Logger) (msg : String) : LogOutput :=
  { stderr_msg := if l.stdout_enabled then some msg else none,
    file_msg := l.log_file.map (fun _ => msg) }

/-- The `let _ = ...` discarding of each write's result in `Logger::log`:
the outcome of the call does not depend on whether the underlying writes
succeeded. -/
def log_write_result_dismissed (_write_result : Except Unit Unit) : Unit := ()

/-- C10: `logger::init` always installs a logger (it is a total function
with no error result); when opening the log file fails, the installed
logger has no log file and subsequent logging still writes to stderr with
the file output silently absent; per-record write errors are discarded. -/
theorem logger_init_never_fails (cmd msg e : String) (use_log_file : Bool)
    (r : Except String (String × Nat)) :
    (logger_init cmd use_log_file r).stdout_enabled = true
    ∧ (logger_init cmd true (Except.error e)).log_file = none
    ∧ (logger_init cmd true (Except.error e)).log_file_path = none
    ∧ (logger_log (logger_init cmd true (Except.error e)) msg).stderr_msg
        = some msg
    ∧ (logger_log (logger_init cmd true (Except.error e)) msg).file_msg
        = none
    ∧ (∀ w : Except Unit Unit, log_write_result_dismissed w = ()) := by
  exact ⟨rfl, rfl, rfl, rfl, rfl, fun _ => rfl⟩

end FastFreeze
